import Mathlib

/-!
Verification of the credential/token core of the `fiber-hello-world` service
(repository `boomwarinthorn/aibeex`): the user registration/authentication
use case (`internal/usecase/user_usecase.go`), the user entity
(`internal/domain/entity/user.go`), the SQLite-backed user store
(`internal/infrastructure/database/sqlite_user_repository.go`), and the JWT
service (`pkg/jwt`), shallowly embedded in Lean.

Times are unix seconds passed explicitly; random bcrypt salts are passed
explicitly.  External library behaviour (golang-jwt/jwt/v5,
golang.org/x/crypto/bcrypt, Go `time.Parse`) is embedded following the
libraries' documented semantics, with the cryptographic primitives (HMAC,
the bcrypt key derivation) idealized as collision-free functions — none of
the properties proved below depends on a cryptographic property beyond
their being functions of their inputs.
-/

/-! ## JWT token service (`pkg/jwt`, golang-jwt/jwt/v5 semantics) -/

/-- Signing methods registered with the golang-jwt/jwt/v5 library, as decoded
from a token header's `alg` field by `jwt.GetSigningMethod`.  `HS256`, `HS384`
and `HS512` are the instances of `*jwt.SigningMethodHMAC`; `unknown` stands
for any `alg` value the library has no method for. -/
inductive SigningMethod
  | HS256
  | HS384
  | HS512
  | RS256
  | ES256
  | EdDSA
  | none
  | unknown
  deriving DecidableEq, Repr

/-- The keyfunc inside `Service.ValidateToken` accepts a token precisely when
its method type-asserts to `*jwt.SigningMethodHMAC`, i.e. is one of
HS256/HS384/HS512. -/
def SigningMethod.isHMAC : SigningMethod → Bool
  | .HS256 => true
  | .HS384 => true
  | .HS512 => true
  | _ => false

/-- The `alg` header name of each signing method. -/
def SigningMethod.algName : SigningMethod → String
  | .HS256 => "HS256"
  | .HS384 => "HS384"
  | .HS512 => "HS512"
  | .RS256 => "RS256"
  | .ES256 => "ES256"
  | .EdDSA => "EdDSA"
  | .none => "none"
  | .unknown => "?"

/-- JWT claims of `pkg/jwt`'s `Claims` struct: the custom `user_id` and
`email` fields plus the `jwt.RegisteredClaims` fields this program sets or
the jwt/v5 validator inspects (`exp`, `iat`, `nbf`, `sub`).  Timestamps are
unix seconds (`jwt.NewNumericDate` truncates to second precision); an absent
claim is `Option.none`. -/
structure Claims where
  userID : Int
  email : String
  expiresAt : Option Int
  issuedAt : Option Int
  notBefore : Option Int
  subject : String
  deriving DecidableEq, Repr

/-- Go's `string(rune(userID))` used for the `Subject` claim: the one-character
string whose code point is `userID` (not its decimal rendering; out-of-range
code points are replaced by a default character). -/
def runeString (n : Int) : String := String.singleton (Char.ofNat n.toNat)

/-- Rendering of an optional numeric claim into the serialized payload. -/
def encOpt : Option Int → String
  | Option.none => ""
  | some n => toString n

/-- Stand-in for the signing input `base64url(headerJSON) ++ "." ++
base64url(claimsJSON)` over which the MAC is computed: it is determined by the
header's algorithm name and the claims. -/
def signingInput (alg : String) (c : Claims) : String :=
  alg ++ "." ++ toString c.userID ++ "|" ++ c.email ++ "|" ++ encOpt c.expiresAt
    ++ "|" ++ encOpt c.issuedAt ++ "|" ++ encOpt c.notBefore ++ "|" ++ c.subject

/-- Modelled from the library: the symmetric MAC family
(HMAC-SHA-256/384/512 from Go's `crypto/hmac`, external to this repository),
idealized as a collision-free keyed function of algorithm, secret and
message.  The decoded signature segment of a token is compared against this
value. -/
def hmacSign (alg secret msg : String) : String :=
  "hmac-" ++ alg ++ ":" ++ secret ++ ":" ++ msg

/-- A structurally parsed token `header.payload.signature`: the decoded
header's signing method, the decoded payload claims, and the decoded
signature segment (the base64url wire encoding of the segments is kept
abstract). -/
structure Token where
  method : SigningMethod
  claims : Claims
  sig : String
  deriving DecidableEq, Repr

/-- `Service.GenerateToken` (`pkg/jwt`): build claims with
`expiresAt = now + 24h`, `issuedAt = now`, `subject = string(rune(userID))`,
and sign them with HS256 under the service's secret key.  Returns the token
and the expiration time.  (HMAC signing over these claims cannot fail, so the
Go error result is always nil and is dropped here.) -/
def GenerateToken (secretKey : String) (userID : Int) (email : String) (now : Int) :
    Token × Int :=
  let expirationTime := now + 24 * 60 * 60
  let claims : Claims :=
    { userID := userID
      email := email
      expiresAt := some expirationTime
      issuedAt := some now
      notBefore := Option.none
      subject := runeString userID }
  ({ method := SigningMethod.HS256
     claims := claims
     sig := hmacSign (SigningMethod.algName .HS256) secretKey
              (signingInput (SigningMethod.algName .HS256) claims) },
   expirationTime)

/-- Individual claim-validation failures produced by the jwt/v5 validator. -/
inductive ClaimError
  | tokenExpired
  | tokenNotValidYet
  deriving DecidableEq, Repr

/-- Errors `Service.ValidateToken` can return.  `methodUnavailable` is the
`signing method (alg) is unavailable` error (`jwt.ErrTokenUnverifiable`)
raised by `ParseUnverified` when the header's `alg` has no registered
method, before the keyfunc runs; `tokenUnverifiable` is the jwt/v5 wrapper
around a keyfunc failure (the keyfunc in this program returns
`jwt.ErrSignatureInvalid` for a non-HMAC method); `signatureInvalid` is the
parser's signature-verification failure; `invalidClaims` wraps the joined
claim-validation errors. -/
inductive TokenError
  | tokenMalformed
  | methodUnavailable
  | tokenUnverifiable (inner : TokenError)
  | signatureInvalid
  | invalidClaims (errs : List ClaimError)
  deriving DecidableEq, Repr

/-- The jwt/v5 `Validator.Validate` with default options (zero leeway, `iat`
not verified unless `WithIssuedAt` is set, no required claims): `exp`, when
present, must be strictly greater than the current time; `nbf`, when present,
must not be in the future; an absent claim is skipped. -/
def validateClaims (c : Claims) (now : Int) : List ClaimError :=
  (match c.expiresAt with
   | Option.none => []
   | some exp => if now < exp then [] else [ClaimError.tokenExpired]) ++
  (match c.notBefore with
   | Option.none => []
   | some nbf => if nbf ≤ now then [] else [ClaimError.tokenNotValidYet])

/-- `Service.ValidateToken` (`pkg/jwt`), following jwt/v5 `ParseWithClaims`
on a structurally well-formed token: `ParseUnverified` first fails with the
`signing method (alg) is unavailable` unverifiable-token error when the
header's `alg` names no registered method (`GetSigningMethod` returns nil);
then the keyfunc runs and rejects any remaining non-HMAC signing method
with `jwt.ErrSignatureInvalid` (wrapped by the parser as a
keyfunc/unverifiable error); then the signature is verified over the
signing input; then the registered claims are validated; on success the
decoded claims are returned.  In jwt/v5 the signature is verified before
the claims are validated. -/
def ValidateToken (secretKey : String) (tok : Token) (now : Int) :
    Except TokenError Claims :=
  if tok.method = SigningMethod.unknown then Except.error TokenError.methodUnavailable
  else if tok.method.isHMAC then
    if tok.sig = hmacSign tok.method.algName secretKey
        (signingInput tok.method.algName tok.claims) then
      let errs := validateClaims tok.claims now
      if errs.isEmpty then Except.ok tok.claims
      else Except.error (TokenError.invalidClaims errs)
    else Except.error TokenError.signatureInvalid
  else Except.error (TokenError.tokenUnverifiable TokenError.signatureInvalid)

/-! ## bcrypt password hashing (golang.org/x/crypto/bcrypt semantics) -/

/-- Modelled from the library: the bcrypt key derivation (the Blowfish-based
`bcrypt` function of golang.org/x/crypto/bcrypt, external to this
repository), idealized as a collision-free function of cost, salt and
password. -/
def bcryptKDF (cost : Nat) (salt password : String) : String :=
  toString cost ++ "|" ++ salt ++ "|" ++ password

/-- A decoded bcrypt hash: cost, the 22-character base64 salt, and the
derived digest. -/
structure BcryptHash where
  cost : Nat
  salt : String
  digest : String
  deriving DecidableEq, Repr

/-- Go's two-decimal-digit rendering of the cost (`%02d`). -/
def costDigits (n : Nat) : String :=
  if n < 10 then "0" ++ toString n else toString n

/-- The bcrypt hash string `$2a$<cost>$<salt><digest>`: version prefix, two
cost digits, `$`, then the 22 salt characters followed positionally by the
digest (no separator). -/
def renderHash (h : BcryptHash) : String :=
  "$2a$" ++ costDigits h.cost ++ "$" ++ h.salt ++ h.digest

/-- Decoding of a bcrypt hash string (`newFromHash`): the `$2a$` version
prefix, two cost digits, `$`, then 22 salt characters, then the digest. -/
def parseHash (s : String) : Option BcryptHash :=
  match s.data with
  | '$' :: '2' :: 'a' :: '$' :: c1 :: c2 :: '$' :: rest =>
    if c1.isDigit ∧ c2.isDigit ∧ 22 ≤ rest.length then
      some { cost := 10 * (c1.toNat - 48) + (c2.toNat - 48)
             salt := String.mk (rest.take 22)
             digest := String.mk (rest.drop 22) }
    else Option.none
  | _ => Option.none

/-- `bcrypt.DefaultCost`. -/
def DefaultCost : Nat := 10

/-- `bcrypt.GenerateFromPassword` at the given cost, with the randomly drawn
salt passed explicitly.  Go's implementation rejects passwords longer than 72
bytes with `bcrypt.ErrPasswordTooLong`. -/
def GenerateFromPassword (password : String) (cost : Nat) (salt : String) :
    Except String String :=
  if password.utf8ByteSize > 72 then
    Except.error "bcrypt: password length exceeds 72 bytes"
  else
    Except.ok (renderHash { cost := cost, salt := salt
                            digest := bcryptKDF cost salt password })

/-- `bcrypt.CompareHashAndPassword`: decode the stored hash, re-derive the
digest from the candidate password under the stored cost and salt, and
compare.  `true` is the nil-error (match) case; a mismatch or an
unparseable hash is an error in Go, `false` here. -/
def CompareHashAndPassword (hashedPassword password : String) : Bool :=
  match parseHash hashedPassword with
  | some h => h.digest == bcryptKDF h.cost h.salt password
  | Option.none => false

/-! ## Go `time.Parse` with layout `2006-01-02` -/

/-- Two fixed decimal digits (Go `getnum` with `fixed = true`, used for the
zero-padded `01` and `02` layout elements). -/
def getnum2 : List Char → Option (Nat × List Char)
  | c1 :: c2 :: rest =>
    if c1.isDigit ∧ c2.isDigit then
      some (10 * (c1.toNat - 48) + (c2.toNat - 48), rest)
    else Option.none
  | _ => Option.none

/-- Four fixed decimal digits (the `2006` long-year layout element). -/
def getnum4 : List Char → Option (Nat × List Char)
  | c1 :: c2 :: c3 :: c4 :: rest =>
    if c1.isDigit ∧ c2.isDigit ∧ c3.isDigit ∧ c4.isDigit then
      some (1000 * (c1.toNat - 48) + 100 * (c2.toNat - 48) + 10 * (c3.toNat - 48)
              + (c4.toNat - 48), rest)
    else Option.none
  | _ => Option.none

/-- Gregorian leap year (Go `isLeap`). -/
def isLeap (year : Nat) : Bool :=
  year % 4 == 0 && (year % 100 != 0 || year % 400 == 0)

/-- Days in a month (Go `daysIn`). -/
def daysIn (month year : Nat) : Nat :=
  if month == 2 then (if isLeap year then 29 else 28)
  else if month == 4 ∨ month == 6 ∨ month == 9 ∨ month == 11 then 30
  else 31

/-- Consumption of the literal `-` separator of the layout. -/
def expectDash : List Char → Option (List Char)
  | c :: r => if c = '-' then some r else Option.none
  | _ => Option.none

/-- Go `time.Parse` with layout `2006-01-02`: four year digits, `-`, two
zero-padded month digits, `-`, two zero-padded day digits, nothing left
over, and the range checks `1 ≤ month ≤ 12` and `1 ≤ day ≤ daysIn month
year` (Go's "month out of range" / "day out of range" errors).  Returns the
parsed `(year, month, day)` on success, `none` on any parse error. -/
def timeParseDate (s : String) : Option (Nat × Nat × Nat) :=
  (getnum4 s.data).bind fun yr =>
    (expectDash yr.2).bind fun r2 =>
      (getnum2 r2).bind fun mr =>
        (expectDash mr.2).bind fun r4 =>
          (getnum2 r4).bind fun dr =>
            if dr.2 = [] ∧ 1 ≤ mr.1 ∧ mr.1 ≤ 12 ∧ 1 ≤ dr.1 ∧ dr.1 ≤ daysIn mr.1 yr.1 then
              some (yr.1, mr.1, dr.1)
            else Option.none

/-- Spec-side definition (from the spec's words, for claim C7): a string
matching the exact zero-padded 4-2-2 digit grouping `YYYY-MM-DD`. -/
def specMatchesYMD (s : String) : Bool :=
  match s.data with
  | [y1, y2, y3, y4, h1, m1, m2, h2, d1, d2] =>
    y1.isDigit && y2.isDigit && y3.isDigit && y4.isDigit && (h1 == '-') &&
      m1.isDigit && m2.isDigit && (h2 == '-') && d1.isDigit && d2.isDigit
  | _ => false

/-- Spec-side definition (for claim C7): Gregorian month lengths. -/
def specDaysInMonth (month year : Nat) : Nat :=
  match month with
  | 1 => 31
  | 2 => if year % 4 = 0 ∧ (year % 100 ≠ 0 ∨ year % 400 = 0) then 29 else 28
  | 3 => 31
  | 4 => 30
  | 5 => 31
  | 6 => 30
  | 7 => 31
  | 8 => 31
  | 9 => 30
  | 10 => 31
  | 11 => 30
  | 12 => 31
  | _ => 0

/-- Spec-side definition (for claim C7): a valid zero-padded calendar date in
the exact `YYYY-MM-DD` grouping. -/
def specValidCalendarDate (s : String) : Bool :=
  match s.data with
  | [y1, y2, y3, y4, h1, m1, m2, h2, d1, d2] =>
    let year := 1000 * (y1.toNat - 48) + 100 * (y2.toNat - 48) + 10 * (y3.toNat - 48)
                  + (y4.toNat - 48)
    let month := 10 * (m1.toNat - 48) + (m2.toNat - 48)
    let day := 10 * (d1.toNat - 48) + (d2.toNat - 48)
    y1.isDigit && y2.isDigit && y3.isDigit && y4.isDigit && (h1 == '-') &&
      m1.isDigit && m2.isDigit && (h2 == '-') && d1.isDigit && d2.isDigit &&
      decide (1 ≤ month) && decide (month ≤ 12) && decide (1 ≤ day) &&
      decide (day ≤ specDaysInMonth month year)
  | _ => false

/-! ## User entity (`internal/domain/entity/user.go`) -/

/-- `entity.User`.  `createdAt` is a unix timestamp. -/
structure User where
  id : Int
  email : String
  password : String
  fullName : String
  phoneNumber : String
  birthday : String
  createdAt : Int
  deriving DecidableEq, Repr

/-- `entity.NewUser`: a new user with zero ID and a fresh `createdAt`
timestamp (`time.Now()`, passed explicitly as `now`). -/
def NewUser (email password fullName phoneNumber birthday : String) (now : Int) : User :=
  { id := 0, email := email, password := password, fullName := fullName
    phoneNumber := phoneNumber, birthday := birthday, createdAt := now }

/-- `User.WithoutPassword`: Go copies the record by value (`userCopy := *u`)
and clears the password on the copy, leaving the receiver's record
untouched; in this pure embedding it is the record update that clears the
password field. -/
def WithoutPassword (u : User) : User := { u with password := "" }

/-! ## SQLite user store (`internal/infrastructure/database/sqlite_user_repository.go`) -/

/-- The `users` table: rows in insertion order plus the next
`AUTOINCREMENT` id.  The table carries `email TEXT UNIQUE NOT NULL`. -/
structure Store where
  users : List User
  nextID : Int
  deriving DecidableEq, Repr

/-- `SQLiteUserRepository.GetByEmail`: `SELECT ... WHERE email = ?`; when no
row matches, `QueryRow(...).Scan` fails with `sql.ErrNoRows`. -/
def GetByEmail (st : Store) (email : String) : Except String User :=
  match st.users.find? (fun u => u.email == email) with
  | some u => Except.ok u
  | Option.none => Except.error "sql: no rows in result set"

/-- `SQLiteUserRepository.GetByID`: `SELECT ... WHERE id = ?`. -/
def GetByID (st : Store) (id : Int) : Except String User :=
  match st.users.find? (fun u => u.id == id) with
  | some u => Except.ok u
  | Option.none => Except.error "sql: no rows in result set"

/-- `SQLiteUserRepository.Create`: `INSERT INTO users ... RETURNING id`.
The `UNIQUE` constraint on `email` makes the insert fail when a row with the
same email already exists; otherwise the row is stored under the next
auto-increment id, which is returned into the user. -/
def Create (st : Store) (user : User) : Except String (User × Store) :=
  if st.users.any (fun u => u.email == user.email) then
    Except.error "constraint failed: UNIQUE constraint failed: users.email"
  else
    let saved := { user with id := st.nextID }
    Except.ok (saved, { users := st.users ++ [saved], nextID := st.nextID + 1 })

/-! ## User use case (`internal/usecase/user_usecase.go`) -/

/-- `UserUseCase.RegisterUser`, with the two repository calls allowed to
observe different store states: `stLookup` is the state seen by the
duplicate pre-check's `GetByEmail`, `stCreate` the state seen by `Create`
(between the two calls a concurrent registration may have committed; the
sequential run is `RegisterUser` below, where both states coincide).
`now` is the `time.Now()` timestamp used by `entity.NewUser`; `salt` is the
random bcrypt salt.  Error strings are the exact `errors.New` messages of
the Go code. -/
def RegisterUserSplit (stLookup stCreate : Store)
    (email password fullName phoneNumber birthday : String)
    (now : Int) (salt : String) : Except String (User × Store) :=
  match GetByEmail stLookup email with
  | Except.ok _ => Except.error "user with this email already exists"
  | Except.error _ =>
    if (timeParseDate birthday).isSome then
      match GenerateFromPassword password DefaultCost salt with
      | Except.error _ => Except.error "failed to hash password"
      | Except.ok hashedPassword =>
        let user := NewUser email hashedPassword fullName phoneNumber birthday now
        match Create stCreate user with
        | Except.error _ => Except.error "failed to save user"
        | Except.ok (savedUser, st') => Except.ok (WithoutPassword savedUser, st')
    else Except.error "invalid birthday format, should be YYYY-MM-DD"

/-- `UserUseCase.RegisterUser` run sequentially: both repository calls see
the same store. -/
def RegisterUser (st : Store) (email password fullName phoneNumber birthday : String)
    (now : Int) (salt : String) : Except String (User × Store) :=
  RegisterUserSplit st st email password fullName phoneNumber birthday now salt

/-- `UserUseCase.AuthenticateUser`: look up by email (any lookup failure
becomes `invalid credentials`), then compare the bcrypt hash (a mismatch
becomes the same `invalid credentials`).  On success the stored user is
returned as-is: the code returns `user`, not `user.WithoutPassword()`, so
the password field still holds the bcrypt hash. -/
def AuthenticateUser (st : Store) (email password : String) : Except String User :=
  match GetByEmail st email with
  | Except.error _ => Except.error "invalid credentials"
  | Except.ok user =>
    if CompareHashAndPassword user.password password then Except.ok user
    else Except.error "invalid credentials"

/-- `UserUseCase.GetUserByID`: fetch by id, clearing the password on the
returned record. -/
def GetUserByID (st : Store) (id : Int) : Except String User :=
  match GetByID st id with
  | Except.error _ => Except.error "user not found"
  | Except.ok user => Except.ok (WithoutPassword user)

/-- Abbreviation for the row `RegisterUser` persists: id from the store's
auto-increment counter, the rendered bcrypt hash in the password field, and
the registration inputs. -/
def registeredRow (st : Store) (email password fullName phoneNumber birthday : String)
    (now : Int) (salt : String) : User :=
  { id := st.nextID, email := email
    password := renderHash { cost := DefaultCost, salt := salt
                             digest := bcryptKDF DefaultCost salt password }
    fullName := fullName, phoneNumber := phoneNumber, birthday := birthday
    createdAt := now }

/-! ## Concrete sample data (used by witnesses and counterexamples) -/

/-- A 22-character bcrypt salt. -/
def salt22 : String := "ABCDEFGHIJKLMNOPQRSTUV"

/-- The store right after table creation: no rows, next id 1. -/
def emptyStore : Store := { users := [], nextID := 1 }

/-- A stored user whose password field holds the bcrypt hash of
`"secret1"`. -/
def sampleUser : User :=
  { id := 1, email := "a@b.co"
    password := renderHash { cost := DefaultCost, salt := salt22
                             digest := bcryptKDF DefaultCost salt22 "secret1" }
    fullName := "A B", phoneNumber := "0812345678", birthday := "1990-01-15"
    createdAt := 0 }

/-- A store holding `sampleUser`. -/
def sampleStore : Store := { users := [sampleUser], nextID := 2 }

/-- Sample token claims with no expiry and no not-before claim. -/
def sampleClaims : Claims :=
  { userID := 7, email := "x@y.co", expiresAt := Option.none
    issuedAt := Option.none, notBefore := Option.none, subject := "" }

/-- A correctly HS256-signed token over `sampleClaims` with `expiresAt = 0`. -/
def expiredTok : Token :=
  { method := SigningMethod.HS256
    claims := { sampleClaims with expiresAt := some 0 }
    sig := hmacSign (SigningMethod.algName .HS256) "secret"
             (signingInput (SigningMethod.algName .HS256)
               { sampleClaims with expiresAt := some 0 }) }

/-! ## Helper lemmas -/

theorem string_mk_set_ne (l : List Char) (i : Nat) (hi : i < l.length) (ch : Char)
    (hne : ch ≠ l.get ⟨i, hi⟩) : String.mk (l.set i ch) ≠ String.mk l := by
  intro h
  have hl : l.set i ch = l := congrArg String.data h
  have h3 : (l.set i ch)[i]? = some ch := List.getElem?_set_self hi
  rw [hl, List.getElem?_eq_getElem hi] at h3
  exact hne (by simpa [List.get_eq_getElem] using (Option.some.inj h3).symm)

/-- An HMAC-family signing method is a registered method: it is not the
`unknown` stand-in for an `alg` value with no registered method. -/
theorem ne_unknown_of_isHMAC {m : SigningMethod} (h : m.isHMAC = true) :
    m ≠ SigningMethod.unknown := by
  intro he
  subst he
  simp [SigningMethod.isHMAC] at h

/-- A token whose signature segment does not match the MAC under the
service's secret fails signature verification (when its method passes the
HMAC gate). -/
theorem ValidateToken_wrong_sig (secretKey : String) (tok : Token) (now : Int)
    (hm : tok.method.isHMAC = true)
    (hs : tok.sig ≠ hmacSign tok.method.algName secretKey
            (signingInput tok.method.algName tok.claims)) :
    ValidateToken secretKey tok now = Except.error TokenError.signatureInvalid := by
  simp [ValidateToken, ne_unknown_of_isHMAC hm, hm, hs]

/-! ## Claim theorems: token service -/

/-- C3: a generate/validate round trip under the same secret, at any
validation time before the token's expiry, succeeds and returns claims
carrying the issuance `userID` and `email`; and altering any character of
the token's signature segment to a different character makes validation
fail with the invalid-signature error. -/
theorem GenerateToken_ValidateToken_roundtrip (secretKey : String) (userID : Int)
    (email : String) (now now' : Int) (hfresh : now' < now + 24 * 60 * 60) :
    (∃ c : Claims,
      ValidateToken secretKey (GenerateToken secretKey userID email now).1 now' =
        Except.ok c ∧ c.userID = userID ∧ c.email = email) ∧
    (∀ (i : Nat) (hi : i < (GenerateToken secretKey userID email now).1.sig.data.length)
       (ch : Char),
      ch ≠ (GenerateToken secretKey userID email now).1.sig.data.get ⟨i, hi⟩ →
      ValidateToken secretKey
        { (GenerateToken secretKey userID email now).1 with
          sig := String.mk ((GenerateToken secretKey userID email now).1.sig.data.set i ch) }
        now' = Except.error TokenError.signatureInvalid) := by
  constructor
  · refine ⟨{ userID := userID, email := email, expiresAt := some (now + 24 * 60 * 60),
              issuedAt := some now, notBefore := Option.none,
              subject := runeString userID }, ?_, rfl, rfl⟩
    simp [ValidateToken, GenerateToken, SigningMethod.isHMAC, validateClaims, hfresh]
    omega
  · intro i hi ch hne
    exact ValidateToken_wrong_sig secretKey _ now' rfl (string_mk_set_ne _ i hi ch hne)

theorem GenerateToken_ValidateToken_roundtrip_witness :
    (0 : Int) < 0 + 24 * 60 * 60 ∧
    (∃ c : Claims,
      ValidateToken "secret" (GenerateToken "secret" 1 "a@b.co" 0).1 0 =
        Except.ok c ∧ c.userID = 1 ∧ c.email = "a@b.co") :=
  ⟨by decide, (GenerateToken_ValidateToken_roundtrip "secret" 1 "a@b.co" 0 0 (by decide)).1⟩

/-- C4 counterexample: a token whose header declares HS384 — not the HS256
used at issuance — and which is HMAC-SHA-384-signed under the service's own
secret is accepted by `ValidateToken`: the keyfunc only checks that the
method is in the HMAC family. -/
theorem ValidateToken_accepts_HS384 :
    ValidateToken "secret"
      { method := SigningMethod.HS384
        claims := sampleClaims
        sig := hmacSign (SigningMethod.algName .HS384) "secret"
                 (signingInput (SigningMethod.algName .HS384) sampleClaims) } 0 =
      Except.ok sampleClaims := by
  rfl

/-- C4 amended: `ValidateToken` rejects a token whose header names an
algorithm with no registered method with the `signing method (alg) is
unavailable` unverifiable-token error raised in `ParseUnverified` before
the keyfunc runs; it rejects a token with a registered algorithm outside
the HMAC family (RS256, ES256, EdDSA, none, ...) with the keyfunc error
that wraps `jwt.ErrSignatureInvalid`; and a token with any HMAC-family
algorithm — not only HS256 — passes the gate and is never rejected with
either of those errors. -/
theorem ValidateToken_algorithm_gate (secretKey : String) (tok : Token) (now : Int) :
    (tok.method = SigningMethod.unknown →
      ValidateToken secretKey tok now = Except.error TokenError.methodUnavailable) ∧
    (tok.method.isHMAC = false → tok.method ≠ SigningMethod.unknown →
      ValidateToken secretKey tok now =
        Except.error (TokenError.tokenUnverifiable TokenError.signatureInvalid)) ∧
    (tok.method.isHMAC = true →
      ValidateToken secretKey tok now ≠ Except.error TokenError.methodUnavailable ∧
      ValidateToken secretKey tok now ≠
        Except.error (TokenError.tokenUnverifiable TokenError.signatureInvalid)) := by
  refine ⟨?_, ?_, ?_⟩
  · intro h
    simp [ValidateToken, h]
  · intro h hne
    simp [ValidateToken, hne, h]
  · intro h
    have hne := ne_unknown_of_isHMAC h
    by_cases hs : tok.sig = hmacSign tok.method.algName secretKey
        (signingInput tok.method.algName tok.claims)
    · by_cases he : (validateClaims tok.claims now).isEmpty <;>
        constructor <;> simp [ValidateToken, hne, h, hs, he]
    · constructor <;> simp [ValidateToken, hne, h, hs]

theorem ValidateToken_algorithm_gate_witness :
    ValidateToken "secret" { method := SigningMethod.unknown, claims := sampleClaims
                             sig := "" } 0 =
      Except.error TokenError.methodUnavailable ∧
    ValidateToken "secret" { method := SigningMethod.RS256, claims := sampleClaims
                             sig := "" } 0 =
      Except.error (TokenError.tokenUnverifiable TokenError.signatureInvalid) ∧
    (ValidateToken "secret" { method := SigningMethod.HS256, claims := sampleClaims
                              sig := "" } 0 ≠
        Except.error TokenError.methodUnavailable ∧
      ValidateToken "secret" { method := SigningMethod.HS256, claims := sampleClaims
                               sig := "" } 0 ≠
        Except.error (TokenError.tokenUnverifiable TokenError.signatureInvalid)) :=
  ⟨(ValidateToken_algorithm_gate "secret"
      { method := SigningMethod.unknown, claims := sampleClaims, sig := "" } 0).1 rfl,
   (ValidateToken_algorithm_gate "secret"
      { method := SigningMethod.RS256, claims := sampleClaims, sig := "" } 0).2.1 rfl
     (by decide),
   (ValidateToken_algorithm_gate "secret"
      { method := SigningMethod.HS256, claims := sampleClaims, sig := "" } 0).2.2 rfl⟩

/-- C8 counterexample: a token that is already expired (`expiresAt = 0`,
validated at time 1) but whose signature segment is wrong fails with the
invalid-signature error, not with `TokenExpired`: jwt/v5 verifies the
signature before it validates the claims. -/
theorem ValidateToken_expired_bad_sig :
    ValidateToken "secret"
      { method := SigningMethod.HS256
        claims := { sampleClaims with expiresAt := some 0 }
        sig := "garbage" } 1 = Except.error TokenError.signatureInvalid ∧
    (Except.error TokenError.signatureInvalid : Except TokenError Claims) ≠
      Except.error (TokenError.invalidClaims [ClaimError.tokenExpired]) := by
  exact ⟨rfl, by simp⟩

/-- C8 amended: `ValidateToken` never succeeds on a token whose `expiresAt`
is at or before the validation time; when such a token's method passes the
HMAC gate and its signature is valid it fails with the claim-validation
error containing `TokenExpired`, but with an invalid signature it fails
with the signature error instead (the signature is checked first). -/
theorem ValidateToken_expired (secretKey : String) (tok : Token) (now exp : Int)
    (hexp : tok.claims.expiresAt = some exp) (hle : exp ≤ now) :
    (∀ c : Claims, ValidateToken secretKey tok now ≠ Except.ok c) ∧
    (tok.method.isHMAC = true →
      tok.sig = hmacSign tok.method.algName secretKey
        (signingInput tok.method.algName tok.claims) →
      ValidateToken secretKey tok now =
        Except.error (TokenError.invalidClaims (validateClaims tok.claims now)) ∧
      ClaimError.tokenExpired ∈ validateClaims tok.claims now) := by
  have hrest : validateClaims tok.claims now = ClaimError.tokenExpired ::
      (match tok.claims.notBefore with
       | Option.none => []
       | some nbf => if nbf ≤ now then [] else [ClaimError.tokenNotValidYet]) := by
    simp [validateClaims, hexp, if_neg (not_lt.mpr hle)]
  constructor
  · intro c hok
    by_cases hm : tok.method.isHMAC
    · have hne := ne_unknown_of_isHMAC hm
      by_cases hs : tok.sig = hmacSign tok.method.algName secretKey
          (signingInput tok.method.algName tok.claims)
      · simp [ValidateToken, hne, hm, hs, hrest] at hok
      · simp [ValidateToken, hne, hm, hs] at hok
    · by_cases hu : tok.method = SigningMethod.unknown
      · simp [ValidateToken, hu] at hok
      · simp [ValidateToken, hu, hm] at hok
  · intro hm hs
    refine ⟨?_, by simp [hrest]⟩
    simp [ValidateToken, ne_unknown_of_isHMAC hm, hm, hs, hrest]

theorem ValidateToken_expired_witness :
    expiredTok.claims.expiresAt = some 0 ∧ (0 : Int) ≤ 5 ∧
    ((∀ c : Claims, ValidateToken "secret" expiredTok 5 ≠ Except.ok c) ∧
     (ValidateToken "secret" expiredTok 5 =
        Except.error (TokenError.invalidClaims (validateClaims expiredTok.claims 5)) ∧
      ClaimError.tokenExpired ∈ validateClaims expiredTok.claims 5)) :=
  ⟨rfl, by decide,
   (ValidateToken_expired "secret" expiredTok 5 0 rfl (by decide)).1,
   (ValidateToken_expired "secret" expiredTok 5 0 rfl (by decide)).2 rfl rfl⟩

/-- C10: a token that is correctly HMAC-signed under the service secret but
carries no `expiresAt` claim (and, like every token this service issues, no
`notBefore` claim) validates successfully at every time: the jwt/v5
validator skips the expiry check when the claim is absent, so such a token
never expires. -/
theorem ValidateToken_no_expiry (secretKey : String) (m : SigningMethod) (c : Claims)
    (now : Int) (hm : m.isHMAC = true) (hexp : c.expiresAt = Option.none)
    (hnbf : c.notBefore = Option.none) :
    ValidateToken secretKey
      { method := m, claims := c
        sig := hmacSign m.algName secretKey (signingInput m.algName c) } now =
      Except.ok c := by
  simp [ValidateToken, ne_unknown_of_isHMAC hm, hm, validateClaims, hexp, hnbf]

theorem ValidateToken_no_expiry_witness :
    SigningMethod.isHMAC .HS256 = true ∧
    sampleClaims.expiresAt = Option.none ∧
    sampleClaims.notBefore = Option.none ∧
    ValidateToken "secret"
      { method := SigningMethod.HS256, claims := sampleClaims
        sig := hmacSign (SigningMethod.algName .HS256) "secret"
                 (signingInput (SigningMethod.algName .HS256) sampleClaims) } 999999999 =
      Except.ok sampleClaims :=
  ⟨rfl, rfl, rfl,
   ValidateToken_no_expiry "secret" SigningMethod.HS256 sampleClaims 999999999 rfl rfl rfl⟩

/-! ## Claim theorems: user entity -/

/-- C9: `WithoutPassword` returns a copy in which only the password field
differs — it is cleared to the empty string — while id, email, full name,
phone number, birthday and creation time are unchanged; the embedding being
pure, the original record is untouched (the Go code copies the struct by
value with `userCopy := *u` before clearing the copy's field). -/
theorem WithoutPassword_frame (u : User) :
    (WithoutPassword u).password = "" ∧
    (WithoutPassword u).id = u.id ∧
    (WithoutPassword u).email = u.email ∧
    (WithoutPassword u).fullName = u.fullName ∧
    (WithoutPassword u).phoneNumber = u.phoneNumber ∧
    (WithoutPassword u).birthday = u.birthday ∧
    (WithoutPassword u).createdAt = u.createdAt := by
  simp [WithoutPassword]

/-! ## Claim theorems: password hashing -/

theorem parseHash_cons (c1 c2 : Char) (rest : List Char) :
    parseHash (String.mk ('$' :: '2' :: 'a' :: '$' :: c1 :: c2 :: '$' :: rest)) =
      (if c1.isDigit ∧ c2.isDigit ∧ 22 ≤ rest.length then
        some { cost := 10 * (c1.toNat - 48) + (c2.toNat - 48)
               salt := String.mk (rest.take 22)
               digest := String.mk (rest.drop 22) }
      else Option.none) := rfl

theorem costDigits_ten : costDigits DefaultCost = "10" := by decide

theorem renderHash_mk (ls ld : List Char) :
    renderHash { cost := DefaultCost, salt := String.mk ls, digest := String.mk ld } =
      String.mk ('$' :: '2' :: 'a' :: '$' :: '1' :: '0' :: '$' :: (ls ++ ld)) := by
  apply String.ext
  simp only [renderHash, costDigits_ten, String.data_append]
  show (((['$', '2', 'a', '$'] ++ ['1', '0']) ++ ['$']) ++ ls) ++ ld =
    '$' :: '2' :: 'a' :: '$' :: '1' :: '0' :: '$' :: (ls ++ ld)
  simp [List.append_assoc]

theorem parseHash_renderHash (salt digest : String) (hlen : salt.data.length = 22) :
    parseHash (renderHash { cost := DefaultCost, salt := salt, digest := digest }) =
      some { cost := DefaultCost, salt := salt, digest := digest } := by
  obtain ⟨ls⟩ := salt
  obtain ⟨ld⟩ := digest
  simp only [String.data] at hlen
  rw [renderHash_mk, parseHash_cons]
  have hcond : ('1' : Char).isDigit ∧ ('0' : Char).isDigit ∧ 22 ≤ (ls ++ ld).length := by
    refine ⟨by decide, by decide, ?_⟩
    simp [List.length_append, hlen]
  rw [if_pos hcond]
  rw [List.take_left' hlen, List.drop_left' hlen]
  rfl

theorem bcryptKDF_inj (cost : Nat) (salt p p2 : String)
    (h : bcryptKDF cost salt p = bcryptKDF cost salt p2) : p = p2 := by
  apply String.ext
  have h2 := congrArg String.data h
  simpa [bcryptKDF] using h2

/-- C5 counterexample: Go's bcrypt rejects passwords longer than 72 bytes
(`bcrypt.ErrPasswordTooLong`), so hashing a 73-byte password produces no
hash at all, and `Verify(p, Hash(p))` cannot return true for it. -/
theorem GenerateFromPassword_too_long :
    GenerateFromPassword (String.mk (List.replicate 73 'a')) DefaultCost salt22 =
      Except.error "bcrypt: password length exceeds 72 bytes" := by
  rfl

/-- C5 amended: for every password of at most 72 bytes, hashing succeeds and
verification with the same password returns true, while verification with
any different password returns false (under the model's collision-free key
derivation). -/
theorem Hash_Verify_roundtrip (p p2 salt : String) (hp : p.utf8ByteSize ≤ 72)
    (hsalt : salt.data.length = 22) :
    ∃ hash, GenerateFromPassword p DefaultCost salt = Except.ok hash ∧
      CompareHashAndPassword hash p = true ∧
      (p2 ≠ p → CompareHashAndPassword hash p2 = false) := by
  have hph := parseHash_renderHash salt (bcryptKDF DefaultCost salt p) hsalt
  refine ⟨renderHash { cost := DefaultCost, salt := salt
                       digest := bcryptKDF DefaultCost salt p }, ?_, ?_, ?_⟩
  · simp [GenerateFromPassword, if_neg (not_lt.mpr hp)]
  · unfold CompareHashAndPassword
    rw [hph]
    simp
  · intro hne
    unfold CompareHashAndPassword
    rw [hph]
    show (bcryptKDF DefaultCost salt p == bcryptKDF DefaultCost salt p2) = false
    exact beq_eq_false_iff_ne.mpr fun hcol => hne (bcryptKDF_inj _ _ _ _ hcol).symm

theorem Hash_Verify_roundtrip_witness :
    ("secret1" : String).utf8ByteSize ≤ 72 ∧ salt22.data.length = 22 ∧
    (∃ hash, GenerateFromPassword "secret1" DefaultCost salt22 = Except.ok hash ∧
      CompareHashAndPassword hash "secret1" = true ∧
      ("wrong" ≠ "secret1" → CompareHashAndPassword hash "wrong" = false)) :=
  ⟨by decide, by decide,
   Hash_Verify_roundtrip "secret1" "wrong" salt22 (by decide) (by decide)⟩

/-! ## Claim theorems: authentication errors -/

/-- C6: authenticating a non-existent email and authenticating an existing
email with a wrong password return the identical `invalid credentials`
error value: a caller observing only the returned error cannot tell whether
the account exists. -/
theorem AuthenticateUser_error_indistinguishable (st : Store)
    (email email2 pw pw2 : String) (u : User)
    (habsent : st.users.find? (fun v => v.email == email) = Option.none)
    (hfound : GetByEmail st email2 = Except.ok u)
    (hwrong : CompareHashAndPassword u.password pw2 = false) :
    AuthenticateUser st email pw = Except.error "invalid credentials" ∧
    AuthenticateUser st email2 pw2 = Except.error "invalid credentials" ∧
    AuthenticateUser st email pw = AuthenticateUser st email2 pw2 := by
  have h1 : AuthenticateUser st email pw = Except.error "invalid credentials" := by
    simp [AuthenticateUser, GetByEmail, habsent]
  have h2 : AuthenticateUser st email2 pw2 = Except.error "invalid credentials" := by
    simp [AuthenticateUser, hfound, hwrong]
  exact ⟨h1, h2, h1.trans h2.symm⟩

theorem AuthenticateUser_error_indistinguishable_witness :
    sampleStore.users.find? (fun v => v.email == "nobody@x.co") = Option.none ∧
    GetByEmail sampleStore "a@b.co" = Except.ok sampleUser ∧
    CompareHashAndPassword sampleUser.password "wrong" = false ∧
    (AuthenticateUser sampleStore "nobody@x.co" "secret1" =
        Except.error "invalid credentials" ∧
      AuthenticateUser sampleStore "a@b.co" "wrong" =
        Except.error "invalid credentials" ∧
      AuthenticateUser sampleStore "nobody@x.co" "secret1" =
        AuthenticateUser sampleStore "a@b.co" "wrong") :=
  ⟨rfl, rfl, rfl,
   AuthenticateUser_error_indistinguishable sampleStore "nobody@x.co" "a@b.co"
     "secret1" "wrong" sampleUser rfl rfl rfl⟩

/-! ## Claim theorems: birthday validation -/

theorem getnum2_some {l : List Char} {n : Nat} {r : List Char}
    (h : getnum2 l = some (n, r)) :
    ∃ c1 c2, l = c1 :: c2 :: r ∧ c1.isDigit ∧ c2.isDigit ∧
      n = 10 * (c1.toNat - 48) + (c2.toNat - 48) := by
  match l with
  | [] => simp [getnum2] at h
  | [c1] => simp [getnum2] at h
  | c1 :: c2 :: rest =>
    by_cases hd : c1.isDigit ∧ c2.isDigit
    · rw [getnum2, if_pos hd] at h
      obtain ⟨hn, hr⟩ := Prod.mk.injEq .. ▸ Option.some.inj h
      exact ⟨c1, c2, by rw [hr], hd.1, hd.2, hn.symm⟩
    · rw [getnum2, if_neg hd] at h
      exact absurd h (by simp)

theorem getnum4_some {l : List Char} {n : Nat} {r : List Char}
    (h : getnum4 l = some (n, r)) :
    ∃ c1 c2 c3 c4, l = c1 :: c2 :: c3 :: c4 :: r ∧
      c1.isDigit ∧ c2.isDigit ∧ c3.isDigit ∧ c4.isDigit := by
  match l with
  | [] => simp [getnum4] at h
  | [c1] => simp [getnum4] at h
  | [c1, c2] => simp [getnum4] at h
  | [c1, c2, c3] => simp [getnum4] at h
  | c1 :: c2 :: c3 :: c4 :: rest =>
    by_cases hd : c1.isDigit ∧ c2.isDigit ∧ c3.isDigit ∧ c4.isDigit
    · rw [getnum4, if_pos hd] at h
      obtain ⟨hn, hr⟩ := Prod.mk.injEq .. ▸ Option.some.inj h
      exact ⟨c1, c2, c3, c4, by rw [hr], hd.1, hd.2.1, hd.2.2.1, hd.2.2.2⟩
    · rw [getnum4, if_neg hd] at h
      exact absurd h (by simp)

theorem expectDash_some {l r : List Char} (h : expectDash l = some r) : l = '-' :: r := by
  match l with
  | [] => simp [expectDash] at h
  | c :: t =>
    by_cases hc : c = '-'
    · subst hc
      rw [expectDash, if_pos rfl] at h
      rw [Option.some.inj h]
    · rw [expectDash, if_neg hc] at h
      exact absurd h (by simp)

/-- A string accepted by Go's `time.Parse "2006-01-02"` matches the exact
zero-padded 4-2-2 digit grouping. -/
theorem specMatchesYMD_of_timeParseDate {s : String} {d : Nat × Nat × Nat}
    (h : timeParseDate s = some d) : specMatchesYMD s = true := by
  unfold timeParseDate at h
  simp only [Option.bind_eq_some] at h
  obtain ⟨⟨year, r1⟩, hg4, r2, hd1, ⟨month, r3⟩, hg2, r4, hd2, ⟨day, r5⟩, hg2b, hif⟩ := h
  have hcond : r5 = [] ∧ 1 ≤ month ∧ month ≤ 12 ∧ 1 ≤ day ∧ day ≤ daysIn month year := by
    by_contra hc
    rw [if_neg hc] at hif
    exact absurd hif (by simp)
  obtain ⟨y1, y2, y3, y4, hly, hy1, hy2, hy3, hy4⟩ := getnum4_some hg4
  obtain ⟨m1, m2, hlm, hm1, hm2, _⟩ := getnum2_some hg2
  obtain ⟨d1, d2, hld, hd1d, hd2d, _⟩ := getnum2_some hg2b
  have hr1 : r1 = '-' :: r2 := expectDash_some hd1
  have hr3 : r3 = '-' :: r4 := expectDash_some hd2
  have hdata : s.data = [y1, y2, y3, y4, '-', m1, m2, '-', d1, d2] := by
    rw [hly, hr1, hlm, hr3, hld, hcond.1]
  rw [specMatchesYMD, hdata]
  simp [hy1, hy2, hy3, hy4, hm1, hm2, hd1d, hd2d]

theorem isLeap_iff (year : Nat) :
    isLeap year = true ↔ (year % 4 = 0 ∧ (year % 100 ≠ 0 ∨ year % 400 = 0)) := by
  simp [isLeap, Bool.and_eq_true, Bool.or_eq_true, beq_iff_eq, bne_iff_ne]

theorem daysIn_eq_spec (month year : Nat) (h1 : 1 ≤ month) (h2 : month ≤ 12) :
    daysIn month year = specDaysInMonth month year := by
  by_cases hl : year % 4 = 0 ∧ (year % 100 ≠ 0 ∨ year % 400 = 0)
  · have hleap : isLeap year = true := (isLeap_iff year).mpr hl
    interval_cases month <;> simp [daysIn, specDaysInMonth, hleap, hl]
  · have hleap : isLeap year = false := by
      rw [Bool.eq_false_iff]
      exact fun hh => hl ((isLeap_iff year).mp hh)
    interval_cases month <;> simp [daysIn, specDaysInMonth, hleap, hl]

/-- A string that is a valid zero-padded calendar date in the exact
`YYYY-MM-DD` grouping is accepted by Go's `time.Parse "2006-01-02"`. -/
theorem timeParseDate_of_specValid {s : String} (h : specValidCalendarDate s = true) :
    (timeParseDate s).isSome = true := by
  unfold specValidCalendarDate at h
  split at h
  · rename_i y1 y2 y3 y4 h1 m1 m2 h2 d1 d2 heq
    simp only [Bool.and_eq_true, beq_iff_eq, decide_eq_true_eq] at h
    obtain ⟨⟨⟨⟨⟨⟨⟨⟨⟨⟨⟨⟨⟨hy1, hy2⟩, hy3⟩, hy4⟩, hh1⟩, hm1⟩, hm2⟩, hh2⟩, hd1c⟩, hd2c⟩,
      hmo1⟩, hmo2⟩, hdy1⟩, hdy2⟩ := h
    subst hh1
    subst hh2
    have hdays := daysIn_eq_spec (10 * (m1.toNat - 48) + (m2.toNat - 48))
      (1000 * (y1.toNat - 48) + 100 * (y2.toNat - 48) + 10 * (y3.toNat - 48)
        + (y4.toNat - 48)) hmo1 hmo2
    unfold timeParseDate
    rw [heq]
    simp [getnum4, getnum2, expectDash, hy1, hy2, hy3, hy4, hm1, hm2, hd1c, hd2c,
      hmo1, hmo2, hdy1, hdy2, hdays]
  · exact absurd h (by simp)

/-- C7: with a fresh email, `RegisterUser` fails with the
invalid-birthday-format error on every birthday string that does not match
the exact zero-padded 4-2-2 grouping `YYYY-MM-DD`, and passes the birthday
validation step (never produces that error) on every string that is a valid
zero-padded calendar date. -/
theorem RegisterUser_birthday_validation (st : Store)
    (email password fullName phoneNumber birthday : String) (now : Int) (salt : String)
    (hfresh : st.users.find? (fun u => u.email == email) = Option.none) :
    (specMatchesYMD birthday = false →
      RegisterUser st email password fullName phoneNumber birthday now salt =
        Except.error "invalid birthday format, should be YYYY-MM-DD") ∧
    (specValidCalendarDate birthday = true →
      RegisterUser st email password fullName phoneNumber birthday now salt ≠
        Except.error "invalid birthday format, should be YYYY-MM-DD") := by
  have hge : GetByEmail st email = Except.error "sql: no rows in result set" := by
    simp [GetByEmail, hfresh]
  constructor
  · intro hbad
    have hnone : timeParseDate birthday = Option.none := by
      cases hp : timeParseDate birthday with
      | none => rfl
      | some dt => exact absurd (specMatchesYMD_of_timeParseDate hp) (by simp [hbad])
    simp [RegisterUser, RegisterUserSplit, hge, hnone]
  · intro hvalid
    have hsome : (timeParseDate birthday).isSome = true := timeParseDate_of_specValid hvalid
    intro hcontra
    simp only [RegisterUser, RegisterUserSplit, hge, hsome, if_true] at hcontra
    split at hcontra
    · exact absurd (Except.error.inj hcontra) (by decide)
    · split at hcontra
      · exact absurd (Except.error.inj hcontra) (by decide)
      · simp at hcontra

theorem RegisterUser_birthday_validation_witness :
    emptyStore.users.find? (fun u => u.email == "a@b.co") = Option.none ∧
    specMatchesYMD "1990-1-1" = false ∧
    specMatchesYMD "1990/01/15" = false ∧
    specMatchesYMD "" = false ∧
    specValidCalendarDate "1990-01-15" = true ∧
    RegisterUser emptyStore "a@b.co" "secret1" "A B" "0812345678" "1990-1-1" 0 salt22 =
      Except.error "invalid birthday format, should be YYYY-MM-DD" ∧
    RegisterUser emptyStore "a@b.co" "secret1" "A B" "0812345678" "1990/01/15" 0 salt22 =
      Except.error "invalid birthday format, should be YYYY-MM-DD" ∧
    RegisterUser emptyStore "a@b.co" "secret1" "A B" "0812345678" "" 0 salt22 =
      Except.error "invalid birthday format, should be YYYY-MM-DD" ∧
    RegisterUser emptyStore "a@b.co" "secret1" "A B" "0812345678" "1990-01-15" 0 salt22 ≠
      Except.error "invalid birthday format, should be YYYY-MM-DD" :=
  ⟨rfl, rfl, rfl, rfl, rfl,
   (RegisterUser_birthday_validation emptyStore "a@b.co" "secret1" "A B" "0812345678"
      "1990-1-1" 0 salt22 rfl).1 rfl,
   (RegisterUser_birthday_validation emptyStore "a@b.co" "secret1" "A B" "0812345678"
      "1990/01/15" 0 salt22 rfl).1 rfl,
   (RegisterUser_birthday_validation emptyStore "a@b.co" "secret1" "A B" "0812345678"
      "" 0 salt22 rfl).1 rfl,
   (RegisterUser_birthday_validation emptyStore "a@b.co" "secret1" "A B" "0812345678"
      "1990-01-15" 0 salt22 rfl).2 rfl⟩

/-! ## Claim theorems: registration and authentication round trip -/

theorem renderHash_ne_empty (h : BcryptHash) : renderHash h ≠ "" := by
  intro hc
  have h2 := congrArg String.data hc
  have h4 : ("$2a$" : String).data = ['$', '2', 'a', '$'] := rfl
  simp [renderHash, String.data_append, h4] at h2

/-- C1 counterexample: registering `a@b.co` with password `secret1` and then
authenticating with the same credentials succeeds, but the record
`AuthenticateUser` returns carries the full bcrypt hash in its password
field — the field is not the empty string. -/
theorem AuthenticateUser_returns_hash_cex :
    (RegisterUser emptyStore "a@b.co" "secret1" "A B" "0812345678" "1990-01-15" 0
        salt22).map
      (fun p => (AuthenticateUser p.2 "a@b.co" "secret1").map (fun v => v.password)) =
      Except.ok (Except.ok
        "$2a$10$ABCDEFGHIJKLMNOPQRSTUV10|ABCDEFGHIJKLMNOPQRSTUV|secret1") ∧
    ("$2a$10$ABCDEFGHIJKLMNOPQRSTUV10|ABCDEFGHIJKLMNOPQRSTUV|secret1" : String) ≠ "" := by
  exact ⟨rfl, by decide⟩

/-- C1 amended: for every fresh email and valid registration input,
`RegisterUser` succeeds (returning the persisted row with the password
cleared) and a subsequent `AuthenticateUser` with the same plaintext
password succeeds — but it returns the stored row itself, whose password
field holds the bcrypt hash and is not empty: `AuthenticateUser` does not
call `WithoutPassword`. -/
theorem RegisterUser_AuthenticateUser_roundtrip (st : Store)
    (email password fullName phoneNumber birthday : String) (now : Int) (salt : String)
    (hfresh : st.users.find? (fun u => u.email == email) = Option.none)
    (hbday : (timeParseDate birthday).isSome = true)
    (hpw : password.utf8ByteSize ≤ 72)
    (hsalt : salt.data.length = 22) :
    RegisterUser st email password fullName phoneNumber birthday now salt =
      Except.ok
        (WithoutPassword (registeredRow st email password fullName phoneNumber birthday now salt),
         { users := st.users ++
             [registeredRow st email password fullName phoneNumber birthday now salt]
           nextID := st.nextID + 1 }) ∧
    AuthenticateUser
        { users := st.users ++
            [registeredRow st email password fullName phoneNumber birthday now salt]
          nextID := st.nextID + 1 } email password =
      Except.ok (registeredRow st email password fullName phoneNumber birthday now salt) ∧
    (registeredRow st email password fullName phoneNumber birthday now salt).password ≠ "" := by
  have hge : GetByEmail st email = Except.error "sql: no rows in result set" := by
    simp [GetByEmail, hfresh]
  have hany : st.users.any (fun u => u.email == email) = false := by
    rw [List.any_eq_false]
    intro x hx
    have hne := List.find?_eq_none.mp hfresh x hx
    simpa using hne
  have hgen : GenerateFromPassword password DefaultCost salt =
      Except.ok (renderHash { cost := DefaultCost, salt := salt
                              digest := bcryptKDF DefaultCost salt password }) := by
    simp [GenerateFromPassword, if_neg (not_lt.mpr hpw)]
  have hcreate : Create st (NewUser email
      (renderHash { cost := DefaultCost, salt := salt
                    digest := bcryptKDF DefaultCost salt password })
      fullName phoneNumber birthday now) =
      Except.ok (registeredRow st email password fullName phoneNumber birthday now salt,
        { users := st.users ++
            [registeredRow st email password fullName phoneNumber birthday now salt]
          nextID := st.nextID + 1 }) := by
    simp [Create, hany, NewUser, registeredRow]
  refine ⟨?_, ?_, renderHash_ne_empty _⟩
  · simp [RegisterUser, RegisterUserSplit, hge, hbday, hgen, hcreate]
  · have hfind : (st.users ++
        [registeredRow st email password fullName phoneNumber birthday now salt]).find?
          (fun u => u.email == email) =
        some (registeredRow st email password fullName phoneNumber birthday now salt) := by
      rw [List.find?_append, hfresh]
      simp [registeredRow]
    have hcmp : CompareHashAndPassword
        (registeredRow st email password fullName phoneNumber birthday now salt).password
        password = true := by
      show CompareHashAndPassword
        (renderHash { cost := DefaultCost, salt := salt
                      digest := bcryptKDF DefaultCost salt password }) password = true
      unfold CompareHashAndPassword
      rw [parseHash_renderHash salt _ hsalt]
      simp
    simp [AuthenticateUser, GetByEmail, hfind, hcmp]

theorem RegisterUser_AuthenticateUser_roundtrip_witness :
    emptyStore.users.find? (fun u => u.email == "a@b.co") = Option.none ∧
    (timeParseDate "1990-01-15").isSome = true ∧
    ("secret1" : String).utf8ByteSize ≤ 72 ∧
    salt22.data.length = 22 ∧
    (RegisterUser emptyStore "a@b.co" "secret1" "A B" "0812345678" "1990-01-15" 0 salt22 =
      Except.ok
        (WithoutPassword (registeredRow emptyStore "a@b.co" "secret1" "A B" "0812345678"
            "1990-01-15" 0 salt22),
         { users := emptyStore.users ++
             [registeredRow emptyStore "a@b.co" "secret1" "A B" "0812345678"
               "1990-01-15" 0 salt22]
           nextID := emptyStore.nextID + 1 }) ∧
    AuthenticateUser
        { users := emptyStore.users ++
            [registeredRow emptyStore "a@b.co" "secret1" "A B" "0812345678"
              "1990-01-15" 0 salt22]
          nextID := emptyStore.nextID + 1 } "a@b.co" "secret1" =
      Except.ok (registeredRow emptyStore "a@b.co" "secret1" "A B" "0812345678"
        "1990-01-15" 0 salt22) ∧
    (registeredRow emptyStore "a@b.co" "secret1" "A B" "0812345678"
        "1990-01-15" 0 salt22).password ≠ "") :=
  ⟨rfl, rfl, by decide, by decide,
   RegisterUser_AuthenticateUser_roundtrip emptyStore "a@b.co" "secret1" "A B"
     "0812345678" "1990-01-15" 0 salt22 rfl rfl (by decide) (by decide)⟩

/-- C2 counterexample: the duplicate pre-check ran against a store without
the email (`emptyStore`), a concurrent registration then committed
(`sampleStore` holds `a@b.co`), and `Create` fails with the UNIQUE
constraint violation — which `RegisterUser` translates into the generic
`failed to save user` error, not the duplicate-email error. -/
theorem RegisterUserSplit_race_generic_error :
    RegisterUserSplit emptyStore sampleStore "a@b.co" "secret2" "C D" "0898765432"
        "1985-05-20" 7 salt22 = Except.error "failed to save user" ∧
    ("failed to save user" : String) ≠ "user with this email already exists" := by
  exact ⟨rfl, by decide⟩

/-- C2 amended: when the pre-check misses (its store state lacks the email)
but the store state seen by `Create` already contains it, the
UNIQUE-constraint failure of `Create` is mapped to the generic persistence
error `failed to save user`; the duplicate-email error `user with this
email already exists` is produced only by the pre-check, so a
concurrently-raced duplicate registration does not fail with
`DuplicateEmail`. -/
theorem RegisterUserSplit_create_duplicate (stLookup stCreate : Store)
    (email password fullName phoneNumber birthday : String) (now : Int) (salt : String)
    (hfresh : stLookup.users.find? (fun u => u.email == email) = Option.none)
    (hbday : (timeParseDate birthday).isSome = true)
    (hpw : password.utf8ByteSize ≤ 72)
    (hdup : stCreate.users.any (fun u => u.email == email) = true) :
    RegisterUserSplit stLookup stCreate email password fullName phoneNumber birthday
        now salt = Except.error "failed to save user" := by
  have hge : GetByEmail stLookup email = Except.error "sql: no rows in result set" := by
    simp [GetByEmail, hfresh]
  have hgen : GenerateFromPassword password DefaultCost salt =
      Except.ok (renderHash { cost := DefaultCost, salt := salt
                              digest := bcryptKDF DefaultCost salt password }) := by
    simp [GenerateFromPassword, if_neg (not_lt.mpr hpw)]
  have hcr : Create stCreate (NewUser email
      (renderHash { cost := DefaultCost, salt := salt
                    digest := bcryptKDF DefaultCost salt password })
      fullName phoneNumber birthday now) =
      Except.error "constraint failed: UNIQUE constraint failed: users.email" := by
    simp [Create, NewUser, hdup]
  simp [RegisterUserSplit, hge, hbday, hgen, hcr]

theorem RegisterUserSplit_create_duplicate_witness :
    emptyStore.users.find? (fun u => u.email == "a@b.co") = Option.none ∧
    (timeParseDate "1985-05-20").isSome = true ∧
    ("secret2" : String).utf8ByteSize ≤ 72 ∧
    sampleStore.users.any (fun u => u.email == "a@b.co") = true ∧
    RegisterUserSplit emptyStore sampleStore "a@b.co" "secret2" "C D" "0898765432"
        "1985-05-20" 7 salt22 = Except.error "failed to save user" :=
  ⟨rfl, rfl, by decide, rfl,
   RegisterUserSplit_create_duplicate emptyStore sampleStore "a@b.co" "secret2" "C D"
     "0898765432" "1985-05-20" 7 salt22 rfl rfl (by decide) rfl⟩
